import Mathlib

/-!
Verification development for the sentinel-watch frontend core.

The definitions below are a shallow embedding of the JavaScript source:
* `src/frontend/src/hooks/useEventStream.js` — the WebSocket stream client
  (message handler, windowed views, connection lifecycle);
* `src/frontend/src/utils/geoUtils.js` — equirectangular projection and
  pointer hit-testing;
* `src/frontend/src/utils/eventConfig.js` and the `EventFeed.jsx` /
  `EventGrid.jsx` components — event-type visual configuration lookup;
* `src/frontend/src/App.jsx` — the visible-event-source selection.

Machine numbers are modelled as rationals (`ℚ`); JavaScript exceptions are
modelled with `Except`, and a `try`/`catch` wrapper restores the prior state
on error, exactly as the source's `catch` block does (it only logs).
-/

namespace SentinelWatch

/-- Domain event, after the wire schema the frontend consumes
(`event_id`, `event_type`, `severity`, `lat`/`lon`, `confidence`,
`timestamp`, plus pass-through descriptive fields). -/
structure Event where
  event_id : String
  event_type : String
  severity : String
  lat : ℚ
  lon : ℚ
  confidence : ℚ
  region : String
  tile_id : String
  satellite : String
  timestamp : ℤ
deriving DecidableEq, Repr

/-- A parsed inbound JSON frame: a `type` field and an optional `events`
array (`none` models a JSON object with no `events` property, whose use
throws a `TypeError` in the source). The element type is a parameter
because the handler never inspects event contents. -/
structure Msg (E : Type) where
  type : String
  events : Option (List E)

/-- The React state held by `useEventStream`: the full window, the recent
feed, the `connected` flag and the single most recent event. -/
structure ClientState (E : Type) where
  events : List E
  feed : List E
  connected : Bool
  latestEvent : Option E

/-- Initial hook state: `useState([])`, `useState([])`, `useState(false)`,
`useState(null)` in `useEventStream.js`. -/
def initState (E : Type) : ClientState E :=
  { events := [], feed := [], connected := false, latestEvent := none }

/-- Body of the `ws.onmessage` handler in `useEventStream.js`, before the
surrounding `try`/`catch`. A frame of `none` models data that
`JSON.parse` rejects (it throws). In the `"history"` branch the source
evaluates `msg.events.slice(0, maxEvents)`, which throws when `events` is
absent, before any state setter runs; likewise the `"new_events"` branch
evaluates `newEvts[0]` first. `newEvts[0] || null` is `List.head?`
(events are objects, hence truthy). -/
def handleBody {E : Type} (maxEvents : Nat) (frame : Option (Msg E))
    (s : ClientState E) : Except Unit (ClientState E) :=
  match frame with
  | none => Except.error ()
  | some msg =>
  if msg.type = "history" then
    match msg.events with
    | some evs =>
        Except.ok { s with events := evs.take maxEvents, feed := evs.take 20 }
    | none => Except.error ()
  else if msg.type = "new_events" then
    match msg.events with
    | some newEvts =>
        Except.ok { s with
          latestEvent := newEvts.head?
          events := (newEvts ++ s.events).take maxEvents
          feed := (newEvts ++ s.feed).take 20 }
    | none => Except.error ()
  else
    Except.ok s

/-- The full `ws.onmessage` handler: `try { ... } catch (err) { log }` —
on any thrown error the React state is left untouched and the socket is
not closed (the handler body contains no `ws.close()` call). -/
def onmessage {E : Type} (maxEvents : Nat) (frame : Option (Msg E))
    (s : ClientState E) : ClientState E :=
  match handleBody maxEvents frame s with
  | Except.ok s' => s'
  | Except.error _ => s

/-- Process a whole inbound frame sequence in arrival order. -/
def run {E : Type} (maxEvents : Nat) (frames : List (Option (Msg E)))
    (s : ClientState E) : ClientState E :=
  frames.foldl (fun st f => onmessage maxEvents f st) s

/-- A well-formed snapshot frame `{"type":"history","events":[...]}`. -/
def mkHistory {E : Type} (evs : List E) : Option (Msg E) :=
  some { type := "history", events := some evs }

/-- A well-formed delta frame `{"type":"new_events","events":[...]}`. -/
def mkDelta {E : Type} (evs : List E) : Option (Msg E) :=
  some { type := "new_events", events := some evs }

theorem run_cons {E : Type} (maxEvents : Nat) (f : Option (Msg E))
    (fs : List (Option (Msg E))) (s : ClientState E) :
    run maxEvents (f :: fs) s = run maxEvents fs (onmessage maxEvents f s) := rfl

theorem onmessage_history {E : Type} (maxEvents : Nat) (evs : List E)
    (s : ClientState E) :
    onmessage maxEvents (mkHistory evs) s =
      { s with events := evs.take maxEvents, feed := evs.take 20 } := rfl

theorem onmessage_delta {E : Type} (maxEvents : Nat) (evs : List E)
    (s : ClientState E) :
    onmessage maxEvents (mkDelta evs) s =
      { s with
        latestEvent := evs.head?
        events := (evs ++ s.events).take maxEvents
        feed := (evs ++ s.feed).take 20 } := rfl

/-- C1: a snapshot (`history`) frame replaces the full window with the
batch truncated to `maxEvents` and the feed with the batch truncated to
20; a delta (`new_events`) frame prepends its batch to both windows and
truncates them to `maxEvents` and 20. In particular, starting from any
state, snapshot `[a,b,c]` followed by delta `[d]` yields the full window
`[d,a,b,c]` (with the default cap 200), and a further snapshot `[x,y]`
makes the full window exactly `[x,y]`. -/
theorem snapshot_replaces_delta_prepends :
    (∀ (E : Type) (maxEvents : Nat) (evs : List E) (s : ClientState E),
      (onmessage maxEvents (mkHistory evs) s).events = evs.take maxEvents ∧
      (onmessage maxEvents (mkHistory evs) s).feed = evs.take 20 ∧
      (onmessage maxEvents (mkDelta evs) s).events =
        (evs ++ s.events).take maxEvents ∧
      (onmessage maxEvents (mkDelta evs) s).feed = (evs ++ s.feed).take 20) ∧
    (∀ a b c d x y : Event,
      (run 200 [mkHistory [a, b, c], mkDelta [d]] (initState Event)).events =
        [d, a, b, c] ∧
      (run 200 [mkHistory [a, b, c], mkDelta [d], mkHistory [x, y]]
          (initState Event)).events = [x, y]) := by
  refine ⟨fun E maxEvents evs s => ⟨rfl, rfl, rfl, rfl⟩, fun a b c d x y => ⟨?_, ?_⟩⟩
  · rfl
  · rfl

/-- C10: a snapshot (`history`) frame changes only the two windows: the
`latestEvent` and `connected` fields keep their previous values, and in
particular `latestEvent` is still `null` after a non-empty snapshot is the
first frame ever processed. -/
theorem history_preserves_latest_and_connected :
    (∀ (E : Type) (maxEvents : Nat) (evs : List E) (s : ClientState E),
      (onmessage maxEvents (mkHistory evs) s).latestEvent = s.latestEvent ∧
      (onmessage maxEvents (mkHistory evs) s).connected = s.connected) ∧
    (∀ a b c : Event,
      (run 200 [mkHistory [a, b, c]] (initState Event)).latestEvent = none) :=
  ⟨fun _ _ _ _ => ⟨rfl, rfl⟩, fun _ _ _ => rfl⟩

/-- C6: a frame that fails to parse as JSON, a parsed frame missing the
`events` array (for either recognised `type`), and a parsed frame whose
`type` is neither `"history"` nor `"new_events"` all leave the client
state — windows, `latestEvent` and `connected` alike — exactly as it was;
no exception escapes the handler (it is total) and the handler body never
closes the connection. -/
theorem malformed_frame_resilience {E : Type} (maxEvents : Nat)
    (s : ClientState E) (t : String) (evs : List E)
    (ht1 : t ≠ "history") (ht2 : t ≠ "new_events") :
    onmessage maxEvents none s = s ∧
    (∀ u : String, onmessage maxEvents (some { type := u, events := none }) s = s) ∧
    onmessage maxEvents (some { type := t, events := some evs }) s = s := by
  refine ⟨rfl, fun u => ?_, ?_⟩
  · by_cases hu : u = "history"
    · subst hu; rfl
    · by_cases hu' : u = "new_events"
      · subst hu'; rfl
      · simp [onmessage, handleBody, hu, hu']
  · simp [onmessage, handleBody, ht1, ht2]

/-- Witness for C6 at a concrete malformed frame. -/
theorem malformed_frame_resilience_witness :
    onmessage 200 (some { type := "ping", events := some [] })
        (initState Event) = initState Event :=
  (malformed_frame_resilience 200 (initState Event) "ping" []
      (by decide) (by decide)).2.2

/-- A concrete event used to instantiate claims on the real event schema. -/
def sampleEvent : Event :=
  { event_id := "EVT_A1B2C3D4", event_type := "flood", severity := "high"
    lat := 10, lon := 20, confidence := 9 / 10, region := "Bangladesh Delta"
    tile_id := "TILE_QX12", satellite := "Sentinel-2"
    timestamp := 1700000000000 }

/-- C7, counterexample: the source's `setLatestEvent(newEvts[0] || null)`
stores `null` when a `new_events` frame carries an empty batch. After
delta `[sampleEvent]` the latest event is `sampleEvent`, but a following
empty delta reverts it to `none` even though `sampleEvent` is still the
newest event that has arrived — contradicting the claim that
`latestEvent` is never reverted to an empty value by an event-free
delta. -/
theorem empty_delta_resets_latest :
    (run 200 [mkDelta [sampleEvent]] (initState Event)).latestEvent =
      some sampleEvent ∧
    (run 200 [mkDelta [sampleEvent], mkDelta []]
        (initState Event)).latestEvent = none :=
  ⟨rfl, rfl⟩

/-- C7, amended: after processing a delta (`new_events`) frame,
`latestEvent` equals the head of that frame's batch — the batch's first
(newest) element when the batch is non-empty, and `none` when the batch
is empty (an empty delta resets it rather than keeping the previous
newest event). -/
theorem latest_event_tracks_delta_head :
    (∀ (E : Type) (maxEvents : Nat) (evs : List E) (s : ClientState E),
      (onmessage maxEvents (mkDelta evs) s).latestEvent = evs.head?) ∧
    (∀ (E : Type) (maxEvents : Nat) (e : E) (evs : List E) (s : ClientState E),
      (onmessage maxEvents (mkDelta (e :: evs)) s).latestEvent = some e) :=
  ⟨fun _ _ _ _ => rfl, fun _ _ _ _ _ => rfl⟩

/-! Geo-projection, from `src/frontend/src/utils/geoUtils.js`, over `ℚ`. -/

/-- Longitude to canvas X: `((lon + 180) / 360) * w`. -/
def lonToX (lon w : ℚ) : ℚ := (lon + 180) / 360 * w

/-- Latitude to canvas Y: `((90 - lat) / 180) * h`. -/
def latToY (lat h : ℚ) : ℚ := (90 - lat) / 180 * h

/-- Canvas coordinates back to `(lat, lon)`:
`lat = 90 - (y / h) * 180`, `lon = (x / w) * 360 - 180`. -/
def xyToLatLon (x y w h : ℚ) : ℚ × ℚ :=
  (90 - y / h * 180, x / w * 360 - 180)

/-- C3: projecting then unprojecting is the identity — for every latitude
in `[-90, 90]`, longitude in `[-180, 180]` and positive canvas dimensions,
`xyToLatLon (lonToX lon w) (latToY lat h) w h = (lat, lon)` exactly over
the rationals (the transforms are linear, so the floating-point versions
agree within rounding tolerance). -/
theorem projection_round_trip (lat lon w h : ℚ)
    (hlat0 : -90 ≤ lat) (hlat1 : lat ≤ 90)
    (hlon0 : -180 ≤ lon) (hlon1 : lon ≤ 180)
    (hw : 0 < w) (hh : 0 < h) :
    xyToLatLon (lonToX lon w) (latToY lat h) w h = (lat, lon) := by
  have hw' : w ≠ 0 := ne_of_gt hw
  have hh' : h ≠ 0 := ne_of_gt hh
  simp only [xyToLatLon, lonToX, latToY, Prod.mk.injEq]
  constructor <;> field_simp <;> ring

/-- Witness for C3 at `lat = 45`, `lon = 30` on an 800 by 400 canvas. -/
theorem projection_round_trip_witness :
    xyToLatLon (lonToX 30 800) (latToY 45 400) 800 400 = (45, 30) :=
  projection_round_trip 45 30 800 400 (by norm_num) (by norm_num)
    (by norm_num) (by norm_num) (by norm_num) (by norm_num)

/-- Squared pixel distance from pointer `(mx, my)` to an event's projected
position. The source computes `Math.hypot(mx - x, my - y)` and only ever
compares such distances with `<`; since the compared quantities are
nonnegative, comparing squared distances is equivalent and stays in `ℚ`. -/
def distSq (mx my w h : ℚ) (evt : Event) : ℚ :=
  (mx - lonToX evt.lon w) ^ 2 + (my - latToY evt.lat h) ^ 2

/-- One iteration of the `events.forEach` loop in `findNearestEvent`:
update `(closest, minDist)` when the candidate is strictly closer. The
accumulator carries the squared running minimum (initially the squared
tolerance). -/
def nearestStep (mx my w h : ℚ) (acc : Option Event × ℚ) (evt : Event) :
    Option Event × ℚ :=
  if distSq mx my w h evt < acc.2 then (some evt, distSq mx my w h evt) else acc

/-- Hit-test from `geoUtils.js`: `closest = null; minDist = maxDist;`
then fold over the events, returning `closest`. -/
def findNearestEvent (mx my : ℚ) (events : List Event) (w h : ℚ)
    (maxDist : ℚ) : Option Event :=
  (events.foldl (nearestStep mx my w h) (none, maxDist ^ 2)).1

theorem nearestFold_spec (mx my w h : ℚ) :
    ∀ (l : List Event) (acc : Option Event × ℚ),
      ((∃ e ∈ l, List.foldl (nearestStep mx my w h) acc l =
          (some e, distSq mx my w h e) ∧ distSq mx my w h e < acc.2) ∨
        List.foldl (nearestStep mx my w h) acc l = acc) ∧
      (List.foldl (nearestStep mx my w h) acc l).2 ≤ acc.2 ∧
      (∀ e ∈ l, (List.foldl (nearestStep mx my w h) acc l).2 ≤
        distSq mx my w h e) ∧
      ((List.foldl (nearestStep mx my w h) acc l).1 = none ↔
        acc.1 = none ∧ ∀ e ∈ l, ¬ distSq mx my w h e < acc.2) := by
  intro l
  induction l with
  | nil => intro acc; simp
  | cons e t ih =>
    intro acc
    rw [List.foldl_cons]
    by_cases hcmp : distSq mx my w h e < acc.2
    · have hstep : nearestStep mx my w h acc e = (some e, distSq mx my w h e) := by
        simp [nearestStep, hcmp]
      rw [hstep]
      obtain ⟨hA, hB, hC, hD⟩ := ih (some e, distSq mx my w h e)
      refine ⟨?_, le_trans hB (le_of_lt hcmp), ?_, ?_⟩
      · rcases hA with ⟨e', he't, hr, hlt⟩ | hr
        · exact Or.inl ⟨e', List.mem_cons_of_mem _ he't, hr, lt_trans hlt hcmp⟩
        · exact Or.inl ⟨e, List.mem_cons_self e t, hr, hcmp⟩
      · intro e'' he''
        rcases List.mem_cons.mp he'' with rfl | h''
        · exact hB
        · exact hC e'' h''
      · constructor
        · intro hnone
          have := (hD.mp hnone).1
          simp at this
        · rintro ⟨-, hall⟩
          exact absurd hcmp (hall e (List.mem_cons_self e t))
    · have hstep : nearestStep mx my w h acc e = acc := by
        simp [nearestStep, hcmp]
      rw [hstep]
      obtain ⟨hA, hB, hC, hD⟩ := ih acc
      refine ⟨?_, hB, ?_, ?_⟩
      · rcases hA with ⟨e', he't, hr, hlt⟩ | hr
        · exact Or.inl ⟨e', List.mem_cons_of_mem _ he't, hr, hlt⟩
        · exact Or.inr hr
      · intro e'' he''
        rcases List.mem_cons.mp he'' with rfl | h''
        · exact le_trans hB (not_lt.mp hcmp)
        · exact hC e'' h''
      · rw [hD]
        constructor
        · rintro ⟨h1, h2⟩
          refine ⟨h1, fun e'' he'' => ?_⟩
          rcases List.mem_cons.mp he'' with rfl | h''
          · exact hcmp
          · exact h2 e'' h''
        · rintro ⟨h1, h2⟩
          exact ⟨h1, fun e'' he'' => h2 e'' (List.mem_cons_of_mem _ he'')⟩

/-- An event whose projection on a 200 by 200 canvas is the pixel
`(100, 100)` (latitude 0, longitude 0). -/
def centerEvent : Event :=
  { sampleEvent with event_id := "EVT_CENTER", lat := 0, lon := 0 }

/-- C4: `findNearestEvent` returns an event of the list whose squared
projected pixel distance to the pointer is minimal over the list and
strictly below the squared tolerance; it returns `none` exactly when the
list is empty or no event is within tolerance (squared distances compare
the same as the source's nonnegative `Math.hypot` distances as long as
the tolerance is nonnegative). In particular, the event projected to
pixel `(100, 100)` is returned for pointer `(101, 100)` with tolerance
18, and not returned for pointer `(130, 100)`. -/
theorem nearest_event_spec :
    (∀ (mx my : ℚ) (events : List Event) (w h maxDist : ℚ),
      0 ≤ maxDist →
      (∀ e, findNearestEvent mx my events w h maxDist = some e →
        e ∈ events ∧ distSq mx my w h e < maxDist ^ 2 ∧
        ∀ e' ∈ events, distSq mx my w h e ≤ distSq mx my w h e') ∧
      (findNearestEvent mx my events w h maxDist = none ↔
        ∀ e ∈ events, ¬ distSq mx my w h e < maxDist ^ 2)) ∧
    findNearestEvent 101 100 [centerEvent] 200 200 18 = some centerEvent ∧
    findNearestEvent 130 100 [centerEvent] 200 200 18 = none := by
  refine ⟨?_, ?_, ?_⟩
  · intro mx my events w h maxDist _hmax
    obtain ⟨hA, hB, hC, hD⟩ := nearestFold_spec mx my w h events (none, maxDist ^ 2)
    constructor
    · intro e hsome
      rcases hA with ⟨e', he', hr, hlt⟩ | hr
      · simp only [findNearestEvent, hr] at hsome
        obtain rfl := Option.some.inj hsome
        refine ⟨he', hlt, fun e'' he'' => ?_⟩
        have := hC e'' he''
        rwa [hr] at this
      · simp only [findNearestEvent, hr] at hsome
        exact absurd hsome (by simp)
    · simp only [findNearestEvent]
      rw [hD]
      simp
  · norm_num [findNearestEvent, List.foldl, nearestStep, distSq, lonToX,
      latToY, centerEvent, sampleEvent]
  · norm_num [findNearestEvent, List.foldl, nearestStep, distSq, lonToX,
      latToY, centerEvent, sampleEvent]

/-- Witness for C4 with the tolerance hypothesis discharged at 18. -/
theorem nearest_event_spec_witness :
    findNearestEvent 130 100 [centerEvent] 200 200 18 = none ↔
      ∀ e ∈ [centerEvent], ¬ distSq 130 100 200 200 e < 18 ^ 2 :=
  (nearest_event_spec.1 130 100 [centerEvent] 200 200 18 (by norm_num)).2

theorem onmessage_length {E : Type} (maxEvents : Nat) (f : Option (Msg E))
    (s : ClientState E) (he : s.events.length ≤ maxEvents)
    (hf : s.feed.length ≤ 20) :
    (onmessage maxEvents f s).events.length ≤ maxEvents ∧
      (onmessage maxEvents f s).feed.length ≤ 20 := by
  cases f with
  | none => exact ⟨he, hf⟩
  | some m =>
    by_cases h1 : m.type = "history"
    · cases hevs : m.events with
      | none =>
        simp only [onmessage, handleBody, h1, hevs, if_pos]
        exact ⟨he, hf⟩
      | some evs =>
        simp only [onmessage, handleBody, h1, hevs, if_pos]
        constructor <;> simp [List.length_take]
    · by_cases h2 : m.type = "new_events"
      · cases hevs : m.events with
        | none =>
          simp only [onmessage, handleBody, h1, h2, hevs, if_neg, if_pos]
          exact ⟨he, hf⟩
        | some evs =>
          simp only [onmessage, handleBody, h1, h2, hevs, if_neg, if_pos]
          constructor <;> simp [List.length_take]
      · simp only [onmessage, handleBody, h1, h2, if_neg]
        exact ⟨he, hf⟩

theorem run_length {E : Type} (maxEvents : Nat)
    (frames : List (Option (Msg E))) :
    ∀ s : ClientState E, s.events.length ≤ maxEvents → s.feed.length ≤ 20 →
      (run maxEvents frames s).events.length ≤ maxEvents ∧
        (run maxEvents frames s).feed.length ≤ 20 := by
  induction frames with
  | nil => intro s he hf; exact ⟨he, hf⟩
  | cons f fs ih =>
    intro s he hf
    rw [run_cons]
    obtain ⟨he', hf'⟩ := onmessage_length maxEvents f s he hf
    exact ih _ he' hf'

/-- Arrival stamp: which inbound message an event came in (`.1`), and its
position inside that message's batch (`.2`). The message handler never
inspects event contents, so its behaviour on stamped events is its
behaviour on any events. -/
def Stamp : Type := Nat × Nat

/-- Stamp `a` is a strictly newer arrival than stamp `b`: it came in a
later message, or earlier (hence newer, batches being newest-first) in
the same message's batch. -/
def newer (a b : Stamp) : Prop := b.1 < a.1 ∨ (a.1 = b.1 ∧ a.2 < b.2)

/-- The batch carried by message number `i`, with `n` events stamped by
their in-batch position. -/
def stampBatch (i n : Nat) : List Stamp := (List.range n).map (fun p => (i, p))

/-- A frame sequence described by its shape only: for each message,
whether it is a snapshot (`true`) or a delta (`false`) and its batch
size; message number `i` carries `stampBatch i`. -/
def stampFrames : Nat → List (Bool × Nat) → List (Option (Msg Stamp))
  | _, [] => []
  | i, (isHist, n) :: rest =>
      (if isHist then mkHistory (stampBatch i n) else mkDelta (stampBatch i n)) ::
        stampFrames (i + 1) rest

theorem stampBatch_pairwise (i n : Nat) : (stampBatch i n).Pairwise newer := by
  unfold stampBatch
  rw [List.pairwise_map]
  exact (List.pairwise_lt_range n).imp (fun h => Or.inr ⟨rfl, h⟩)

theorem stampBatch_fst (i n : Nat) : ∀ e ∈ stampBatch i n, e.1 = i := by
  intro e he
  unfold stampBatch at he
  obtain ⟨p, -, rfl⟩ := List.mem_map.mp he
  rfl

/-- Invariant after the first `i` messages: both windows are strictly
ordered newest-arrival-first, and every held stamp is from a message
before `i`. -/
def goodState (i : Nat) (s : ClientState Stamp) : Prop :=
  s.events.Pairwise newer ∧ s.feed.Pairwise newer ∧
    (∀ e ∈ s.events, e.1 < i) ∧ (∀ e ∈ s.feed, e.1 < i)

theorem goodState_history (maxEvents i n : Nat) (s : ClientState Stamp)
    (_hs : goodState i s) :
    goodState (i + 1) (onmessage maxEvents (mkHistory (stampBatch i n)) s) := by
  rw [onmessage_history]
  refine ⟨?_, ?_, ?_, ?_⟩
  · exact (stampBatch_pairwise i n).sublist (List.take_sublist _ _)
  · exact (stampBatch_pairwise i n).sublist (List.take_sublist _ _)
  · intro e he
    have := stampBatch_fst i n e (List.mem_of_mem_take he)
    omega
  · intro e he
    have := stampBatch_fst i n e (List.mem_of_mem_take he)
    omega

theorem goodState_delta (maxEvents i n : Nat) (s : ClientState Stamp)
    (hs : goodState i s) :
    goodState (i + 1) (onmessage maxEvents (mkDelta (stampBatch i n)) s) := by
  rw [onmessage_delta]
  obtain ⟨hpe, hpf, hme, hmf⟩ := hs
  have hcross : ∀ old ∈ s.events, ∀ b ∈ stampBatch i n, newer b old := by
    intro old hold b hb
    exact Or.inl (by rw [stampBatch_fst i n b hb]; exact hme old hold)
  have hcrossf : ∀ old ∈ s.feed, ∀ b ∈ stampBatch i n, newer b old := by
    intro old hold b hb
    exact Or.inl (by rw [stampBatch_fst i n b hb]; exact hmf old hold)
  refine ⟨?_, ?_, ?_, ?_⟩
  · refine (List.Pairwise.sublist (List.take_sublist _ _) ?_)
    exact List.pairwise_append.mpr
      ⟨stampBatch_pairwise i n, hpe, fun a ha b hb => hcross b hb a ha⟩
  · refine (List.Pairwise.sublist (List.take_sublist _ _) ?_)
    exact List.pairwise_append.mpr
      ⟨stampBatch_pairwise i n, hpf, fun a ha b hb => hcrossf b hb a ha⟩
  · intro e he
    rcases List.mem_append.mp (List.mem_of_mem_take he) with hb | hold
    · have := stampBatch_fst i n e hb; omega
    · have := hme e hold; omega
  · intro e he
    rcases List.mem_append.mp (List.mem_of_mem_take he) with hb | hold
    · have := stampBatch_fst i n e hb; omega
    · have := hmf e hold; omega

theorem run_stamped_good (maxEvents : Nat) :
    ∀ (batches : List (Bool × Nat)) (i : Nat) (s : ClientState Stamp),
      goodState i s →
      goodState (i + batches.length) (run maxEvents (stampFrames i batches) s) := by
  intro batches
  induction batches with
  | nil => intro i s hs; simpa [stampFrames, run] using hs
  | cons b rest ih =>
    intro i s hs
    obtain ⟨isHist, n⟩ := b
    have harith : i + ((isHist, n) :: rest).length = (i + 1) + rest.length := by
      simp [List.length_cons]; omega
    rw [harith]
    cases isHist with
    | true =>
      have h1 := goodState_history maxEvents i n s hs
      have h2 := ih (i + 1) _ h1
      simpa [stampFrames, run_cons] using h2
    | false =>
      have h1 := goodState_delta maxEvents i n s hs
      have h2 := ih (i + 1) _ h1
      simpa [stampFrames, run_cons] using h2

/-- C2: after any sequence of snapshot/delta frames from the initial
state, the full window holds at most `maxEvents` entries and the feed at
most 20; and on the arrival-stamped instantiation (the handler is
parametric in the event payload) both windows are strictly ordered
newest-arrival-first — each delta batch's events precede all previously
held events. -/
theorem window_cap_and_order :
    (∀ (E : Type) (maxEvents : Nat) (frames : List (Option (Msg E))),
      (run maxEvents frames (initState E)).events.length ≤ maxEvents ∧
      (run maxEvents frames (initState E)).feed.length ≤ 20) ∧
    (∀ (maxEvents : Nat) (batches : List (Bool × Nat)),
      (run maxEvents (stampFrames 0 batches) (initState Stamp)).events.Pairwise newer ∧
      (run maxEvents (stampFrames 0 batches) (initState Stamp)).feed.Pairwise newer) := by
  constructor
  · intro E maxEvents frames
    exact run_length maxEvents frames (initState E) (by simp [initState])
      (by simp [initState])
  · intro maxEvents batches
    have h := run_stamped_good maxEvents batches 0 (initState Stamp)
      ⟨List.Pairwise.nil, List.Pairwise.nil, by simp [initState], by simp [initState]⟩
    exact ⟨h.1, h.2.1⟩

/-! Connection lifecycle of `useEventStream.js`: the `useEffect` cleanup
(`clearTimeout(reconnectTimer); ws.close()`), the `ws.onclose` handler
(`setConnected(false); reconnectTimer = setTimeout(connect, 3000)`), and
the timer callback `connect` (no-op when the current socket is `OPEN`,
otherwise constructs a new `WebSocket`). The handlers stay attached after
cleanup — the source installs no torn-down guard. -/

/-- State of the single-threaded event loop around the stream hook.
`connectAttempts` counts `new WebSocket(...)` constructions; a freshly
constructed socket is `CONNECTING`, so `wsOpen` stays false until its
`onopen` fires. -/
structure LoopState where
  wsOpen : Bool
  closeEventPending : Bool
  timerPending : Bool
  tornDown : Bool
  connected : Bool
  connectAttempts : Nat
deriving DecidableEq, Repr

/-- The `useEffect` cleanup: cancel the pending reconnect timer and close
the socket. Closing an open socket queues its `close` event; the
`onclose` handler is not detached. -/
def cleanup (s : LoopState) : LoopState :=
  { s with tornDown := true, timerPending := false, wsOpen := false
           closeEventPending := s.closeEventPending || s.wsOpen }

/-- Delivery of a queued socket `close` event: `ws.onclose` sets
`connected = false` and schedules `setTimeout(connect, 3000)`,
unconditionally. -/
def fireClose (s : LoopState) : LoopState :=
  if s.closeEventPending then
    { s with closeEventPending := false, connected := false, timerPending := true }
  else s

/-- The reconnect timer firing: run `connect`, which returns early only
when the current socket is `OPEN` and otherwise constructs a new
`WebSocket`. -/
def fireTimer (s : LoopState) : LoopState :=
  if s.timerPending then
    if s.wsOpen then { s with timerPending := false }
    else { s with timerPending := false
                  connectAttempts := s.connectAttempts + 1 }
  else s

/-- A live, connected client with no pending timer, about to be torn
down. -/
def openedState : LoopState :=
  { wsOpen := true, closeEventPending := false, timerPending := false
    tornDown := false, connected := true, connectAttempts := 0 }

/-- C5, failing trace: tearing down a live client cancels the timer and
closes the socket, but the close event this queues is delivered after
teardown and `ws.onclose` schedules a fresh 3-second reconnect timer;
when that timer fires, `connect` constructs a new `WebSocket` — a
reconnect attempt after teardown, contradicting the claim that none ever
occurs. -/
theorem reconnect_after_teardown :
    (cleanup openedState).tornDown = true ∧
    (cleanup openedState).timerPending = false ∧
    (fireClose (cleanup openedState)).timerPending = true ∧
    (fireClose (cleanup openedState)).tornDown = true ∧
    (fireTimer (fireClose (cleanup openedState))).connectAttempts =
      openedState.connectAttempts + 1 ∧
    (fireTimer (fireClose (cleanup openedState))).tornDown = true :=
  ⟨rfl, rfl, rfl, rfl, rfl, rfl⟩

/-! Event-type visual configuration, from `utils/eventConfig.js` and its
use in `EventFeed.jsx` and `EventGrid.jsx`. -/

/-- One entry of `EVENT_CONFIG`. -/
structure EventTypeConfig where
  icon : String
  label : String
  color : String
  bg : String
  border : String
  description : String
deriving DecidableEq, Repr

/-- The `deforestation` entry of `EVENT_CONFIG`. -/
def deforestationConfig : EventTypeConfig :=
  { icon := "🌳", label := "Deforestation", color := "#22c55e"
    bg := "rgba(34,197,94,0.12)", border := "#166534"
    description := "Sudden NDVI drop below forest baseline" }

/-- The `flood` entry of `EVENT_CONFIG`. -/
def floodConfig : EventTypeConfig :=
  { icon := "🌊", label := "Flood", color := "#38bdf8"
    bg := "rgba(56,189,248,0.12)", border := "#0369a1"
    description := "NDWI surge above seasonal water baseline" }

/-- The `crop_stress` entry of `EVENT_CONFIG`. -/
def cropStressConfig : EventTypeConfig :=
  { icon := "🌾", label := "Crop Stress", color := "#fbbf24"
    bg := "rgba(251,191,36,0.12)", border := "#92400e"
    description := "Moderate NDVI decline in agricultural zones" }

/-- The `construction` entry of `EVENT_CONFIG`. -/
def constructionConfig : EventTypeConfig :=
  { icon := "🏗️", label := "Construction", color := "#a78bfa"
    bg := "rgba(167,139,250,0.12)", border := "#4c1d95"
    description := "NDVI drop + high SWIR reflectance" }

/-- The `fire` entry of `EVENT_CONFIG`. -/
def fireConfig : EventTypeConfig :=
  { icon := "🔥", label := "Fire", color := "#fb923c"
    bg := "rgba(251,146,60,0.12)", border := "#7c2d12"
    description := "SWIR spike + near-zero NDVI" }

/-- The `drought` entry of `EVENT_CONFIG`. -/
def droughtConfig : EventTypeConfig :=
  { icon := "🏜️", label := "Drought", color := "#f59e0b"
    bg := "rgba(245,158,11,0.12)", border := "#78350f"
    description := "Negative NDWI delta — water body shrinkage" }

/-- Property lookup `EVENT_CONFIG[t]`: `some` for the six enumerated
event types, `none` (JS `undefined`) otherwise. -/
def EVENT_CONFIG (t : String) : Option EventTypeConfig :=
  if t = "deforestation" then some deforestationConfig
  else if t = "flood" then some floodConfig
  else if t = "crop_stress" then some cropStressConfig
  else if t = "construction" then some constructionConfig
  else if t = "fire" then some fireConfig
  else if t = "drought" then some droughtConfig
  else none

/-- Config selection in `EventFeed.jsx`:
`EVENT_CONFIG[evt.event_type] || EVENT_CONFIG.deforestation`. -/
def eventFeedConfigFor (t : String) : EventTypeConfig :=
  (EVENT_CONFIG t).getD deforestationConfig

/-- Config selection in `EventGrid.jsx`: the same fallback expression. -/
def eventGridConfigFor (t : String) : EventTypeConfig :=
  (EVENT_CONFIG t).getD deforestationConfig

/-- C8: for any `event_type` outside the six enumerated values, both the
feed and the grid resolve a defined default configuration entry — the
`deforestation` entry, with its icon, label and color — so rendering such
an event never lacks a config (and hence cannot throw on a missing
entry). -/
theorem unknown_type_fallback (t : String)
    (h : t ∉ ["deforestation", "flood", "crop_stress", "construction",
      "fire", "drought"]) :
    eventFeedConfigFor t = deforestationConfig ∧
    eventGridConfigFor t = deforestationConfig ∧
    (eventFeedConfigFor t).icon = "🌳" ∧
    (eventFeedConfigFor t).label = "Deforestation" ∧
    (eventFeedConfigFor t).color = "#22c55e" := by
  simp only [List.mem_cons, List.not_mem_nil, or_false] at h
  push_neg at h
  obtain ⟨h1, h2, h3, h4, h5, h6⟩ := h
  simp [eventFeedConfigFor, eventGridConfigFor, EVENT_CONFIG,
    deforestationConfig, h1, h2, h3, h4, h5, h6]

/-- Witness for C8 at the spec's example `event_type = "unknown_x"`. -/
theorem unknown_type_fallback_witness :
    eventFeedConfigFor "unknown_x" = deforestationConfig ∧
    eventGridConfigFor "unknown_x" = deforestationConfig ∧
    (eventFeedConfigFor "unknown_x").icon = "🌳" ∧
    (eventFeedConfigFor "unknown_x").label = "Deforestation" ∧
    (eventFeedConfigFor "unknown_x").color = "#22c55e" :=
  unknown_type_fallback "unknown_x" (by decide)

/-! Visible-event-source selection, from `App.jsx`:
`const events = wsEvents.length > 0 ? wsEvents : mockEvents;`. The
`connected` flag is in scope there but not consulted by this selection. -/

/-- The `App.jsx` selection of the visible event source. `connected` is
passed because the claim quantifies over it; the source expression never
reads it. -/
def pickEvents (connected : Bool) (wsEvents mockEvents : List Event) :
    List Event :=
  if wsEvents.length > 0 then wsEvents else mockEvents

/-- C9, counterexample: with the client connected but its window still
empty (`connected = true`, no events received yet) the visible source is
the mock dataset, not the client's window; and with the client
disconnected but a non-empty window retained, the visible source is the
window, not the mock dataset. The selection depends only on whether the
window is non-empty, never on `connected`. -/
theorem visible_source_ignores_connected :
    pickEvents true [] [sampleEvent] = [sampleEvent] ∧
    ([sampleEvent] : List Event) ≠ [] ∧
    pickEvents false [centerEvent] [sampleEvent] = [centerEvent] ∧
    ([centerEvent] : List Event) ≠ [sampleEvent] := by
  refine ⟨rfl, by simp, rfl, ?_⟩
  intro heq
  have h1 : centerEvent = sampleEvent := by injection heq
  exact absurd (congrArg Event.event_id h1) (by decide)

/-- C9, amended: the visible event source is the stream client's window
whenever that window is non-empty, and the synthetic mock dataset when
the window is empty — irrespective of the `connected` flag. -/
theorem visible_source_by_window_nonempty :
    ∀ (connected : Bool) (wsEvents mockEvents : List Event),
      pickEvents connected wsEvents mockEvents =
        if wsEvents.isEmpty then mockEvents else wsEvents := by
  intro c ws mock
  cases ws <;> simp [pickEvents]

end SentinelWatch
